import Mathlib

/-!
Verification development for the webhook delivery service.

The definitions below are shallow embeddings of the Python source:
ids (UUIDs) are modelled as natural numbers, JSON payloads as opaque
strings, timestamps as integers counting seconds, and the outcome of
the outbound HTTP POST as an explicit oracle value.  Database and
cache state are passed explicitly; infrastructure operations that the
claims treat as reliable (log insert, queue enqueue) are assumed to
succeed, while the HTTP call and the Redis cache operations - whose
failure behaviour the claims are about - are modelled explicitly.
-/

/-- A row of the `delivery_logs` table (src/models/delivery_log.py). -/
structure DeliveryLog where
  webhook_id : Nat
  subscription_id : Nat
  target_url : String
  timestamp : Int
  attempt_number : Nat
  outcome : String
  status_code : Option Nat
  error : Option String
deriving DecidableEq

/-- A delivery job as enqueued on the RQ queue: the argument tuple of
`process_delivery_sync` (src/workers/delivery_worker.py). -/
structure DeliveryJob where
  subscription_id : Nat
  payload : String
  event_type : Option String
  signature : Option String
  webhook_id : Nat
  attempt : Nat
deriving DecidableEq

/-- Result of the outbound HTTP POST: either a response with a status
code, or an exception (timeout, connection error, ...) with a message. -/
inductive HttpResult where
  | response (status_code : Nat)
  | exn (msg : String)
deriving DecidableEq

/-- The cached projection of a subscription:
`{id, target_url, secret, events}` (src/cache/subscription_cache.py). -/
structure SubData where
  id : Nat
  target_url : String
  secret : Option String
  events : List String
deriving DecidableEq

/-- A row of the `subscriptions` table (src/models/subscription.py). -/
structure Subscription where
  id : Nat
  target_url : String
  secret : Option String
  events : Option (List String)
deriving DecidableEq

/-- The dict built by the cache from a subscription row:
`{"id": ..., "target_url": ..., "secret": ..., "events": sub.events or []}`. -/
def subscription_projection (sub : Subscription) : SubData :=
  { id := sub.id
    target_url := sub.target_url
    secret := sub.secret
    events := sub.events.getD [] }

/-- `MAX_ATTEMPTS = 5` (src/workers/delivery_worker.py). -/
def MAX_ATTEMPTS : Nat := 5

/-- `BACKOFF_SCHEDULE = [10, 30, 60, 300, 900]` seconds. -/
def BACKOFF_SCHEDULE : List Nat := [10, 30, 60, 300, 900]

/-- The job the worker re-enqueues on retry: same fields, attempt + 1. -/
def next_job (j : DeliveryJob) : DeliveryJob :=
  { j with attempt := j.attempt + 1 }

/-- The row inserted by `log_delivery_attempt`. -/
def mk_log (j : DeliveryJob) (target : String) (now : Int) (outcome : String)
    (status_code : Option Nat) (error : Option String) : DeliveryLog :=
  { webhook_id := j.webhook_id
    subscription_id := j.subscription_id
    target_url := target
    timestamp := now
    attempt_number := j.attempt
    outcome := outcome
    status_code := status_code
    error := error }

/-- What one worker step produces: the log rows it inserts (in order)
and the retry it schedules, if any, as a pair of delay seconds and job. -/
structure WorkerResult where
  logs : List DeliveryLog
  enqueued : Option (Nat × DeliveryJob)
deriving DecidableEq

/-- Embedding of `process_delivery` (src/workers/delivery_worker.py).

`sub_data` is the result of the cache-or-DB subscription lookup and
`http` the result of the outbound POST.  The control flow mirrors the
source: a missing subscription drops the job silently; a 2xx response
falls through to the final log with outcome Success; a non-2xx
response sets outcome to Failed Attempt and error to "HTTP code", and
either logs and reschedules (attempt < MAX_ATTEMPTS) or falls through
to the final log still carrying outcome Failed Attempt; an exception
with attempts remaining logs Failed Attempt (no status code) and
reschedules, while an exception at the last attempt leaves `outcome`
as None so the final log writes Success with no status and no error. -/
def process_delivery (sub_data : Option SubData) (http : HttpResult)
    (now : Int) (j : DeliveryJob) : WorkerResult :=
  match sub_data with
  | none => { logs := [], enqueued := none }
  | some sub =>
    let target := sub.target_url
    match http with
    | .response code =>
      if 200 ≤ code ∧ code < 300 then
        { logs := [mk_log j target now "Success" (some code) none]
          enqueued := none }
      else
        let error_details := "HTTP " ++ toString code
        if j.attempt < MAX_ATTEMPTS then
          { logs := [mk_log j target now "Failed Attempt" (some code) (some error_details)]
            enqueued := some (BACKOFF_SCHEDULE.getD (j.attempt - 1) 0, next_job j) }
        else
          { logs := [mk_log j target now "Failed Attempt" (some code) (some error_details)]
            enqueued := none }
    | .exn msg =>
      if j.attempt < MAX_ATTEMPTS then
        { logs := [mk_log j target now "Failed Attempt" none (some msg)]
          enqueued := some (BACKOFF_SCHEDULE.getD (j.attempt - 1) 0, next_job j) }
      else
        { logs := [mk_log j target now "Success" none none]
          enqueued := none }

/-- An HTTP result counts as a delivery failure when it is a non-2xx
response or an exception. -/
def http_failure : HttpResult → Bool
  | .response code => !(decide (200 ≤ code ∧ code < 300))
  | .exn _ => true

/-- Responses produced by `ingest_webhook` (src/api/routes/ingest.py). -/
inductive IngestResponse where
  | notFound
  | badRequest
  | accepted (webhook_id : Nat)
deriving DecidableEq

/-- Result of one ingestion request: the HTTP response and the list of
jobs enqueued while handling it. -/
structure IngestResult where
  response : IngestResponse
  enqueued : List DeliveryJob
deriving DecidableEq

/-- Embedding of `ingest_webhook` (src/api/routes/ingest.py).

`sub_data` is the cache-or-DB lookup result; `body` is the result of
parsing the request body as JSON (`none` models a JSONDecodeError);
`fresh_webhook_id` stands for the `uuid.uuid4()` generated on the
success path. -/
def ingest_webhook (sub_data : Option SubData) (body : Option String)
    (fresh_webhook_id : Nat) (subscription_id : Nat)
    (x_event_type x_signature : Option String) : IngestResult :=
  match sub_data with
  | none => { response := .notFound, enqueued := [] }
  | some _ =>
    match body with
    | none => { response := .badRequest, enqueued := [] }
    | some payload =>
      { response := .accepted fresh_webhook_id
        enqueued := [{ subscription_id := subscription_id
                       payload := payload
                       event_type := x_event_type
                       signature := x_signature
                       webhook_id := fresh_webhook_id
                       attempt := 1 }] }

/-- Concrete subscription data used in closed evaluation theorems. -/
def subEx : SubData :=
  { id := 3, target_url := "http://t", secret := none, events := [] }

/-- A delivery job at the final attempt (attempt = MAX_ATTEMPTS). -/
def jobEx5 : DeliveryJob :=
  { subscription_id := 3, payload := "p", event_type := none
    signature := none, webhook_id := 7, attempt := 5 }

/-- A delivery job at the first attempt. -/
def jobEx1 : DeliveryJob :=
  { subscription_id := 3, payload := "p", event_type := none
    signature := none, webhook_id := 7, attempt := 1 }

/-- Claim C1: at attempt = MAX_ATTEMPTS the worker is supposed to log
outcome Failure on a failed POST.  The code does not: a non-2xx
response at attempt 5 falls through to the final log still labelled
Failed Attempt, and an exception at attempt 5 leaves the outcome
variable unset so the final log is labelled Success with no status
code and no error.  In both cases exactly one row is written and no
retry is enqueued, but the outcome Failure never occurs. -/
theorem c1_exhausted_attempt_mislabeled :
    (process_delivery (some subEx) (.response 503) 0 jobEx5).logs.map (fun r => r.outcome)
        = ["Failed Attempt"] ∧
    (process_delivery (some subEx) (.response 503) 0 jobEx5).enqueued = none ∧
    (process_delivery (some subEx) (.exn "timeout") 0 jobEx5).logs.map (fun r => r.outcome)
        = ["Success"] ∧
    (process_delivery (some subEx) (.exn "timeout") 0 jobEx5).enqueued = none ∧
    (∀ r ∈ (process_delivery (some subEx) (.response 503) 0 jobEx5).logs,
      r.outcome ≠ "Failure") ∧
    (∀ r ∈ (process_delivery (some subEx) (.exn "timeout") 0 jobEx5).logs,
      r.outcome ≠ "Failure") := by
  refine ⟨by decide, by decide, by decide, by decide, by decide, by decide⟩

/-- Claim C2: a failed POST at attempt A < MAX_ATTEMPTS writes exactly
one Failed Attempt row for that attempt and schedules the same job at
attempt A + 1 with delay BACKOFF_SCHEDULE[A-1]; no retry is scheduled
from a successful (2xx) attempt nor from attempt ≥ MAX_ATTEMPTS. -/
theorem c2_retry_schedule (sub : SubData) (j : DeliveryJob) (http : HttpResult)
    (now : Int) :
    (1 ≤ j.attempt → j.attempt < MAX_ATTEMPTS → http_failure http = true →
      (process_delivery (some sub) http now j).logs.map (fun r => r.outcome)
          = ["Failed Attempt"] ∧
      (∀ r ∈ (process_delivery (some sub) http now j).logs,
        r.webhook_id = j.webhook_id ∧ r.attempt_number = j.attempt) ∧
      (process_delivery (some sub) http now j).enqueued
          = some (BACKOFF_SCHEDULE.getD (j.attempt - 1) 0, next_job j) ∧
      (next_job j).attempt = j.attempt + 1 ∧
      (next_job j).webhook_id = j.webhook_id ∧
      (next_job j).subscription_id = j.subscription_id) ∧
    (http_failure http = false →
      (process_delivery (some sub) http now j).enqueued = none) ∧
    (MAX_ATTEMPTS ≤ j.attempt →
      (process_delivery (some sub) http now j).enqueued = none) ∧
    BACKOFF_SCHEDULE = [10, 30, 60, 300, 900] := by
  refine ⟨?_, ?_, ?_, rfl⟩
  · intro _ hlt hfail
    cases http with
    | response code =>
      have h2xx : ¬ (200 ≤ code ∧ code < 300) := by
        have := hfail
        simp only [http_failure, Bool.not_eq_true', decide_eq_false_iff_not] at this
        exact this
      simp [process_delivery, h2xx, hlt, next_job, mk_log]
    | exn msg =>
      simp [process_delivery, hlt, next_job, mk_log]
  · intro hsucc
    cases http with
    | response code =>
      have h2xx : 200 ≤ code ∧ code < 300 := by
        by_contra h
        simp [http_failure, h] at hsucc
      simp [process_delivery, h2xx]
    | exn msg => simp [http_failure] at hsucc
  · intro hmax
    have hnlt : ¬ j.attempt < MAX_ATTEMPTS := by omega
    cases http with
    | response code =>
      by_cases h2xx : 200 ≤ code ∧ code < 300
      · simp [process_delivery, h2xx]
      · simp [process_delivery, h2xx, hnlt]
    | exn msg => simp [process_delivery, hnlt]

/-- Witness for C2: attempt 1, HTTP 503 gives one Failed Attempt row
and a retry at attempt 2 delayed by 10 seconds. -/
theorem c2_retry_schedule_witness :
    (1 ≤ jobEx1.attempt ∧ jobEx1.attempt < MAX_ATTEMPTS ∧
      http_failure (.response 503) = true) ∧
    ((process_delivery (some subEx) (.response 503) 0 jobEx1).logs.map (fun r => r.outcome)
        = ["Failed Attempt"] ∧
      (∀ r ∈ (process_delivery (some subEx) (.response 503) 0 jobEx1).logs,
        r.webhook_id = jobEx1.webhook_id ∧ r.attempt_number = jobEx1.attempt) ∧
      (process_delivery (some subEx) (.response 503) 0 jobEx1).enqueued
          = some (BACKOFF_SCHEDULE.getD (jobEx1.attempt - 1) 0, next_job jobEx1) ∧
      (next_job jobEx1).attempt = jobEx1.attempt + 1 ∧
      (next_job jobEx1).webhook_id = jobEx1.webhook_id ∧
      (next_job jobEx1).subscription_id = jobEx1.subscription_id) :=
  ⟨by decide,
    (c2_retry_schedule subEx jobEx1 (.response 503) 0).1
      (by decide) (by decide) (by decide)⟩

/-- Claim C5: a 2xx response produces exactly one log row with outcome
Success, status_code equal to the response code and no error, and no
retry is enqueued. -/
theorem c5_success_logging (sub : SubData) (j : DeliveryJob) (now : Int)
    (code : Nat) (h1 : 200 ≤ code) (h2 : code < 300) :
    (process_delivery (some sub) (.response code) now j).logs.length = 1 ∧
    (∀ r ∈ (process_delivery (some sub) (.response code) now j).logs,
      r.outcome = "Success" ∧ r.status_code = some code ∧ r.error = none ∧
      r.webhook_id = j.webhook_id ∧ r.attempt_number = j.attempt) ∧
    (process_delivery (some sub) (.response code) now j).enqueued = none := by
  have h2xx : 200 ≤ code ∧ code < 300 := ⟨h1, h2⟩
  refine ⟨?_, ?_, ?_⟩ <;> simp [process_delivery, h2xx, mk_log]

/-- Witness for C5 at response code 200. -/
theorem c5_success_logging_witness :
    (200 ≤ 200 ∧ 200 < 300) ∧
    ((process_delivery (some subEx) (.response 200) 0 jobEx1).logs.length = 1 ∧
      (∀ r ∈ (process_delivery (some subEx) (.response 200) 0 jobEx1).logs,
        r.outcome = "Success" ∧ r.status_code = some 200 ∧ r.error = none ∧
        r.webhook_id = jobEx1.webhook_id ∧ r.attempt_number = jobEx1.attempt) ∧
      (process_delivery (some subEx) (.response 200) 0 jobEx1).enqueued = none) :=
  ⟨by decide, c5_success_logging subEx jobEx1 0 200 (by decide) (by decide)⟩

/-- Claim C3: ingestion fails NotFound with no job when the
subscription lookup is absent, fails BadRequest with no job when the
body does not parse as JSON, and otherwise returns Accepted with the
fresh webhook id having enqueued exactly one job at attempt 1 for it. -/
theorem c3_ingest_handoff (sub_data : Option SubData) (body : Option String)
    (wid sid : Nat) (et sig : Option String) :
    (sub_data = none →
      (ingest_webhook sub_data body wid sid et sig).response = .notFound ∧
      (ingest_webhook sub_data body wid sid et sig).enqueued = []) ∧
    (sub_data ≠ none → body = none →
      (ingest_webhook sub_data body wid sid et sig).response = .badRequest ∧
      (ingest_webhook sub_data body wid sid et sig).enqueued = []) ∧
    (∀ sub payload, sub_data = some sub → body = some payload →
      (ingest_webhook sub_data body wid sid et sig).response = .accepted wid ∧
      (ingest_webhook sub_data body wid sid et sig).enqueued.length = 1 ∧
      ∀ j ∈ (ingest_webhook sub_data body wid sid et sig).enqueued,
        j.webhook_id = wid ∧ j.attempt = 1 ∧ j.subscription_id = sid ∧
        j.payload = payload ∧ j.event_type = et ∧ j.signature = sig) := by
  refine ⟨?_, ?_, ?_⟩
  · rintro rfl
    simp [ingest_webhook]
  · rintro hs rfl
    cases sub_data with
    | none => exact absurd rfl hs
    | some sub => simp [ingest_webhook]
  · rintro sub payload rfl rfl
    simp [ingest_webhook]

/-- Witness for C3: a successful ingestion enqueues one job at attempt 1. -/
theorem c3_ingest_handoff_witness :
    ((some subEx : Option SubData) = some subEx ∧ (some "p" : Option String) = some "p") ∧
    ((ingest_webhook (some subEx) (some "p") 7 3 none none).response = .accepted 7 ∧
      (ingest_webhook (some subEx) (some "p") 7 3 none none).enqueued.length = 1 ∧
      ∀ j ∈ (ingest_webhook (some subEx) (some "p") 7 3 none none).enqueued,
        j.webhook_id = 7 ∧ j.attempt = 1 ∧ j.subscription_id = 3 ∧
        j.payload = "p" ∧ j.event_type = none ∧ j.signature = none) :=
  ⟨⟨rfl, rfl⟩,
    (c3_ingest_handoff (some subEx) (some "p") 7 3 none none).2.2 subEx "p" rfl rfl⟩

/-- A raw cached value: the stored string either decodes as the JSON
projection of a subscription or fails `json.loads`. -/
inductive CacheEntry where
  | decodable (data : SubData)
  | undecodable
deriving DecidableEq

/-- Redis key space for subscriptions, as an association list keyed by
subscription id (the source prefixes ids with "subscription:"). -/
abbrev CacheState := List (Nat × CacheEntry)

/-- `redis_conn.get(key)`: the first entry under the key, if any. -/
def lookupKey (st : CacheState) (k : Nat) : Option CacheEntry :=
  (st.find? (fun p => p.fst == k)).map (fun p => p.snd)

/-- `redis_conn.set(key, value)`: unconditional overwrite. -/
def setKey (st : CacheState) (k : Nat) (v : CacheEntry) : CacheState :=
  (k, v) :: st.filter (fun p => !(p.fst == k))

/-- `redis_conn.delete(key)`. -/
def delKey (st : CacheState) (k : Nat) : CacheState :=
  st.filter (fun p => !(p.fst == k))

/-- Failure oracle for the best-effort Redis operations: whether the
cache read and the cache write raise during one call. -/
structure CacheFailures where
  get_fails : Bool
  set_fails : Bool
deriving DecidableEq

/-- `select(Subscription).where(Subscription.id == sid)` followed by
`scalar_one_or_none()`. -/
def db_find (db : List Subscription) (sid : Nat) : Option Subscription :=
  db.find? (fun s => s.id == sid)

/-- Step 1 of `get_subscription` (src/cache/subscription_cache.py):
the try-block around `redis_conn.get`.  A raised cache read or an
undecodable entry yields none, treated as a miss. -/
def cache_probe (st : CacheState) (fails : CacheFailures) (sid : Nat) :
    Option SubData :=
  if fails.get_fails then none
  else
    match lookupKey st sid with
    | some (.decodable d) => some d
    | some .undecodable => none
    | none => none

/-- Embedding of `get_subscription` (src/cache/subscription_cache.py),
continued: on a cache miss it loads the row from the database, writes
the projection through to the cache (best-effort: a raised cache write
is swallowed) and returns it; it returns none exactly when the
fallback ran and the database has no such row.  Returns the result and
the cache state after the call. -/
def get_subscription (st : CacheState) (db : List Subscription)
    (fails : CacheFailures) (sid : Nat) : Option SubData × CacheState :=
  match cache_probe st fails sid with
  | some d => (some d, st)
  | none =>
    match db_find db sid with
    | none => (none, st)
    | some sub =>
      let data := subscription_projection sub
      (some data, if fails.set_fails then st else setKey st sid (.decodable data))

/-- Embedding of `cache_subscription` (best-effort put). -/
def cache_subscription (st : CacheState) (set_fails : Bool)
    (sub : Subscription) : CacheState :=
  if set_fails then st
  else setKey st sub.id (.decodable (subscription_projection sub))

/-- Embedding of `invalidate_subscription` (best-effort delete). -/
def invalidate_subscription (st : CacheState) (del_fails : Bool)
    (sid : Nat) : CacheState :=
  if del_fails then st else delKey st sid

/-- Combined persistent and cached state seen by the CRUD routes. -/
structure AppState where
  db : List Subscription
  cache : CacheState
deriving DecidableEq

/-- The PATCH body: pydantic `SubscriptionUpdate` with
`exclude_unset=True` semantics - an outer `none` means the field was
not sent and is left unchanged. -/
structure SubscriptionUpdate where
  target_url : Option String
  secret : Option (Option String)
  events : Option (Option (List String))
deriving DecidableEq

/-- The `setattr` loop of `update_subscription` over the set fields. -/
def apply_update (sub : Subscription) (upd : SubscriptionUpdate) : Subscription :=
  let s1 := match upd.target_url with
    | none => sub
    | some u => { sub with target_url := u }
  let s2 := match upd.secret with
    | none => s1
    | some sec => { s1 with secret := sec }
  match upd.events with
  | none => s2
  | some ev => { s2 with events := ev }

/-- Response of the PATCH route. -/
inductive UpdateResult where
  | notFound
  | ok (sub : Subscription)
deriving DecidableEq

/-- Embedding of the PATCH route `update_subscription`
(src/api/routes/subscriptions.py): load the row, apply the set fields,
commit, then refresh the cache with a best-effort put. -/
def update_subscription (st : AppState) (set_fails : Bool) (sid : Nat)
    (upd : SubscriptionUpdate) : UpdateResult × AppState :=
  match db_find st.db sid with
  | none => (.notFound, st)
  | some sub =>
    let sub2 := apply_update sub upd
    let db2 := st.db.map (fun s => if s.id == sid then sub2 else s)
    let cache2 := cache_subscription st.cache set_fails sub2
    (.ok sub2, { db := db2, cache := cache2 })

/-- Embedding of the DELETE route `delete_subscription`: delete the
row, commit, then invalidate the cache entry best-effort.  The boolean
is true when the row was found (204) and false on 404. -/
def delete_subscription (st : AppState) (del_fails : Bool) (sid : Nat) :
    Bool × AppState :=
  match db_find st.db sid with
  | none => (false, st)
  | some _ =>
    let db2 := st.db.filter (fun s => !(s.id == sid))
    let cache2 := invalidate_subscription st.cache del_fails sid
    (true, { db := db2, cache := cache2 })

/-- Whether the cache currently holds a decodable entry for the id. -/
def cache_hit (st : CacheState) (sid : Nat) : Bool :=
  match lookupKey st sid with
  | some (.decodable _) => true
  | _ => false


lemma cache_probe_none_iff (st : CacheState) (fails : CacheFailures) (sid : Nat) :
    cache_probe st fails sid = none ↔
      (cache_hit st sid = false ∨ fails.get_fails = true) := by
  unfold cache_probe cache_hit
  cases fails.get_fails with
  | true => simp
  | false =>
    simp only [if_false, Bool.false_eq_true, or_false]
    cases lookupKey st sid with
    | none => simp
    | some e => cases e <;> simp

lemma lookupKey_setKey_self (st : CacheState) (k : Nat) (v : CacheEntry) :
    lookupKey (setKey st k v) k = some v := by
  simp [lookupKey, setKey]

/-- Claim C6 (amended): `get_subscription` returns absent only when
the database has no row with that id (the converse fails: a stale
decodable cache entry is returned even when the row is gone from the
database); whenever the database has the row the call returns a value,
for every combination of cache read and write failures, so no cache
failure ever turns a present subscription into an absent answer; and
on a cache miss, cache read failure or undecodable entry the result is
exactly the database projection, which is written through to the cache
when the cache write succeeds. -/
theorem c6_get_or_load (st : CacheState) (db : List Subscription)
    (fails : CacheFailures) (sid : Nat) :
    ((get_subscription st db fails sid).fst = none → db_find db sid = none) ∧
    (db_find db sid ≠ none → (get_subscription st db fails sid).fst ≠ none) ∧
    (cache_hit st sid = false ∨ fails.get_fails = true →
      (get_subscription st db fails sid).fst
          = (db_find db sid).map subscription_projection ∧
      (fails.set_fails = false → ∀ sub, db_find db sid = some sub →
        lookupKey (get_subscription st db fails sid).snd sid
            = some (.decodable (subscription_projection sub)))) := by
  cases hp : cache_probe st fails sid with
  | some d =>
    have hres : get_subscription st db fails sid = (some d, st) := by
      simp [get_subscription, hp]
    refine ⟨?_, ?_, ?_⟩
    · intro hnone
      rw [hres] at hnone
      exact absurd hnone (by simp)
    · intro _
      rw [hres]
      simp
    · intro hmiss
      have : cache_probe st fails sid = none := (cache_probe_none_iff st fails sid).mpr hmiss
      rw [hp] at this
      exact absurd this (by simp)
  | none =>
    cases hdb : db_find db sid with
    | none =>
      have hres : get_subscription st db fails sid = (none, st) := by
        simp [get_subscription, hp, hdb]
      refine ⟨fun _ => rfl, fun hne => absurd rfl hne, fun _ => ⟨?_, ?_⟩⟩
      · rw [hres]
        rfl
      · intro _ sub hsub
        exact absurd hsub (by simp)
    | some sub =>
      have hres : get_subscription st db fails sid
          = (some (subscription_projection sub),
              if fails.set_fails then st
              else setKey st sid (.decodable (subscription_projection sub))) := by
        simp [get_subscription, hp, hdb]
      refine ⟨?_, ?_, fun _ => ⟨?_, ?_⟩⟩
      · intro hnone
        rw [hres] at hnone
        exact absurd hnone (by simp)
      · intro _
        rw [hres]
        simp
      · rw [hres]
        rfl
      · intro hsf sub2 hsub2
        cases hsub2
        rw [hres]
        simp [hsf, lookupKey_setKey_self]

/-- A stale cache entry with an empty database for claim C6's
counterexample. -/
def staleCache : CacheState := [(7, .decodable subEx)]

/-- Counterexample to claim C6 as stated: with a decodable cache entry
for id 7 and a database containing no subscription at all,
`get_subscription` returns the cached value, not absent, so "absent if
and only if the store has no such subscription" fails in the "if"
direction. -/
theorem c6_counterexample :
    ¬ (((get_subscription staleCache [] ⟨false, false⟩ 7).fst = none) ↔
        (db_find [] 7 = none)) := by
  decide

/-- Witness for C6: a cache miss on an empty cache with a one-row
database returns the projection and writes it through. -/
theorem c6_get_or_load_witness :
    (cache_hit [] 3 = false ∨ (⟨false, false⟩ : CacheFailures).get_fails = true) ∧
    ((get_subscription [] [⟨3, "http://t", none, none⟩] ⟨false, false⟩ 3).fst
        = (db_find [⟨3, "http://t", none, none⟩] 3).map subscription_projection ∧
      ((⟨false, false⟩ : CacheFailures).set_fails = false →
        ∀ sub, db_find [⟨3, "http://t", none, none⟩] 3 = some sub →
        lookupKey (get_subscription [] [⟨3, "http://t", none, none⟩] ⟨false, false⟩ 3).snd 3
            = some (.decodable (subscription_projection sub)))) :=
  ⟨Or.inl rfl,
    (c6_get_or_load [] [⟨3, "http://t", none, none⟩] ⟨false, false⟩ 3).2.2 (Or.inl rfl)⟩

lemma apply_update_id (sub : Subscription) (upd : SubscriptionUpdate) :
    (apply_update sub upd).id = sub.id := by
  unfold apply_update
  cases upd.target_url <;> cases upd.secret <;> cases upd.events <;> rfl

lemma db_find_id (db : List Subscription) (sid : Nat) (sub : Subscription)
    (h : db_find db sid = some sub) : sub.id = sid := by
  have := List.find?_some h
  simpa using this

lemma db_find_map_replace (db : List Subscription) (sid : Nat) (b : Subscription)
    (hb : b.id = sid) (h : db_find db sid ≠ none) :
    db_find (db.map (fun s => if s.id == sid then b else s)) sid = some b := by
  induction db with
  | nil => simp [db_find] at h
  | cons hd tl ih =>
    by_cases hhd : hd.id = sid
    · simp [db_find, List.find?_cons, hhd, hb]
    · have hbeq : (hd.id == sid) = false := by simp [hhd]
      have hnp : ¬ ((fun s => s.id == sid) hd = true) := by simp [hbeq]
      unfold db_find at h ⊢
      rw [@List.find?_cons_of_neg _ (fun s => s.id == sid) hd tl hnp] at h
      have hmap : (hd :: tl).map (fun s => if s.id == sid then b else s)
          = hd :: tl.map (fun s => if s.id == sid then b else s) := by
        rw [List.map_cons, if_neg hnp]
      rw [hmap,
        @List.find?_cons_of_neg _ (fun s => s.id == sid) hd
          (tl.map (fun s => if s.id == sid then b else s)) hnp]
      exact ih h

lemma db_find_filter_out (db : List Subscription) (sid : Nat) :
    db_find (db.filter (fun s => !(s.id == sid))) sid = none := by
  apply List.find?_eq_none.mpr
  intro x hx
  have := (List.mem_filter.mp hx).2
  simpa using this

lemma lookupKey_delKey_self (st : CacheState) (sid : Nat) :
    lookupKey (delKey st sid) sid = none := by
  unfold lookupKey delKey
  have : (st.filter (fun p => !(p.fst == sid))).find? (fun p => p.fst == sid) = none := by
    apply List.find?_eq_none.mpr
    intro x hx
    have := (List.mem_filter.mp hx).2
    simpa using this
  rw [this]
  rfl

lemma cache_probe_of_lookup_none (st : CacheState) (fails : CacheFailures)
    (sid : Nat) (h : lookupKey st sid = none) :
    cache_probe st fails sid = none := by
  unfold cache_probe
  cases fails.get_fails <;> simp [h]

/-- Claim C7 (amended): provided the best-effort cache operation of
the mutation succeeds, an update is observed by every subsequent
`get_or_load` (it returns the projection of the updated row, whether
it reads the refreshed cache entry or falls back to the database), and
after a delete every subsequent `get_or_load` returns absent.  When
the cache put or invalidate raises (and is swallowed), a stale entry
may be observed instead. -/
theorem c7_update_delete_coherence (st : AppState) (sid : Nat)
    (upd : SubscriptionUpdate) :
    (∀ sub2 st2, update_subscription st false sid upd = (.ok sub2, st2) →
      ∀ f : CacheFailures, (get_subscription st2.cache st2.db f sid).fst
          = some (subscription_projection sub2)) ∧
    (∀ st2, delete_subscription st false sid = (true, st2) →
      ∀ f : CacheFailures, (get_subscription st2.cache st2.db f sid).fst = none) := by
  constructor
  · intro sub2 st2 hupd f
    unfold update_subscription at hupd
    cases hdb : db_find st.db sid with
    | none =>
      rw [hdb] at hupd
      exact absurd (congrArg Prod.fst hupd) (by simp)
    | some sub =>
      rw [hdb] at hupd
      have hsub2 : sub2 = apply_update sub upd := by
        have := congrArg Prod.fst hupd
        simpa using this.symm
      have hst2 : st2 = { db := st.db.map (fun s => if s.id == sid then apply_update sub upd else s)
                          cache := cache_subscription st.cache false (apply_update sub upd) } := by
        have := congrArg Prod.snd hupd
        simpa using this.symm
      have hid : (apply_update sub upd).id = sid := by
        rw [apply_update_id]
        exact db_find_id st.db sid sub hdb
      subst hsub2
      subst hst2
      cases hg : f.get_fails with
      | false =>
        have hlook : lookupKey (cache_subscription st.cache false (apply_update sub upd)) sid
            = some (.decodable (subscription_projection (apply_update sub upd))) := by
          unfold cache_subscription
          rw [if_neg (by simp)]
          rw [← hid]
          exact lookupKey_setKey_self st.cache (apply_update sub upd).id _
        have hprobe : cache_probe (cache_subscription st.cache false (apply_update sub upd)) f sid
            = some (subscription_projection (apply_update sub upd)) := by
          unfold cache_probe
          rw [hg]
          simp [hlook]
        unfold get_subscription
        rw [hprobe]
      | true =>
        have hprobe : cache_probe (cache_subscription st.cache false (apply_update sub upd)) f sid
            = none := by
          unfold cache_probe
          rw [hg]
          simp
        have hdb2 : db_find (st.db.map (fun s => if s.id == sid then apply_update sub upd else s)) sid
            = some (apply_update sub upd) :=
          db_find_map_replace st.db sid (apply_update sub upd) hid (by simp [hdb])
        unfold get_subscription
        rw [hprobe, hdb2]
  · intro st2 hdel f
    unfold delete_subscription at hdel
    cases hdb : db_find st.db sid with
    | none =>
      rw [hdb] at hdel
      exact absurd (congrArg Prod.fst hdel) (by simp)
    | some sub =>
      rw [hdb] at hdel
      have hst2 : st2 = { db := st.db.filter (fun s => !(s.id == sid))
                          cache := invalidate_subscription st.cache false sid } := by
        have := congrArg Prod.snd hdel
        simpa using this.symm
      subst hst2
      have hlook : lookupKey (invalidate_subscription st.cache false sid) sid = none := by
        unfold invalidate_subscription
        rw [if_neg (by simp)]
        exact lookupKey_delKey_self st.cache sid
      have hprobe : cache_probe (invalidate_subscription st.cache false sid) f sid = none :=
        cache_probe_of_lookup_none _ f sid hlook
      have hdb2 : db_find (st.db.filter (fun s => !(s.id == sid))) sid = none :=
        db_find_filter_out st.db sid
      unfold get_subscription
      rw [hprobe, hdb2]

/-- The stored subscription row used in the C7 scenario. -/
def subOld : Subscription := ⟨1, "http://old", none, none⟩

/-- Application state before the update: the row is in the database
and its projection sits in the cache. -/
def stEx7 : AppState :=
  ⟨[subOld], [(1, .decodable (subscription_projection subOld))]⟩

/-- The PATCH body changing only the target URL. -/
def updEx : SubscriptionUpdate := ⟨some "http://new", none, none⟩

/-- Counterexample to claim C7 as stated: when the best-effort cache
put raised during the update (and was swallowed), a subsequent
`get_or_load` still returns the stale cached target URL, not the
updated one, even though the update returned to the caller. -/
theorem c7_counterexample :
    (update_subscription stEx7 true 1 updEx).fst
        = .ok ⟨1, "http://new", none, none⟩ ∧
    (get_subscription (update_subscription stEx7 true 1 updEx).snd.cache
        (update_subscription stEx7 true 1 updEx).snd.db ⟨false, false⟩ 1).fst
        = some (subscription_projection subOld) ∧
    subscription_projection subOld
        ≠ subscription_projection ⟨1, "http://new", none, none⟩ := by
  refine ⟨by decide, by decide, by decide⟩

/-- The updated row for the C7 witness. -/
def sub2W : Subscription := ⟨1, "http://new", none, none⟩

/-- State after the successful update in the C7 witness. -/
def st2W : AppState :=
  ⟨[sub2W], [(1, .decodable (subscription_projection sub2W))]⟩

/-- Witness for C7: with the cache put succeeding, a subsequent read
(here one whose cache read raises, exercising the database fallback)
observes the updated fields. -/
theorem c7_update_delete_coherence_witness :
    (update_subscription stEx7 false 1 updEx = (.ok sub2W, st2W)) ∧
    (get_subscription st2W.cache st2W.db ⟨true, false⟩ 1).fst
        = some (subscription_projection sub2W) :=
  ⟨by decide,
    (c7_update_delete_coherence stEx7 1 updEx).1 sub2W st2W (by decide) ⟨true, false⟩⟩

/-- An async SQLAlchemy session over the delivery_logs table:
`committed` is the durable table state, `pending` the state seen
through the session's uncommitted transaction. -/
structure DbSession where
  committed : List DeliveryLog
  pending : List DeliveryLog
deriving DecidableEq

/-- `AsyncSessionLocal()`: a fresh session over the current table. -/
def DbSession.fresh (db : List DeliveryLog) : DbSession :=
  { committed := db, pending := db }

/-- `db.execute(delete(DeliveryLog).where(p))`: removes the matching
rows from the transaction's view and reports `rowcount`. -/
def DbSession.execute_delete (s : DbSession) (p : DeliveryLog → Bool) :
    DbSession × Nat :=
  ({ s with pending := s.pending.filter (fun r => !(p r)) },
    (s.pending.filter p).length)

/-- `db.commit()`: makes the pending view durable. -/
def DbSession.commit (s : DbSession) : DbSession :=
  { s with committed := s.pending }

/-- `db.rollback()`: discards the pending changes. -/
def DbSession.rollback (s : DbSession) : DbSession :=
  { s with pending := s.committed }

/-- The retention horizon: `cutoff = now - 72 hours` in seconds. -/
def retention_cutoff (now : Int) : Int := now - 72 * 3600

/-- Embedding of `purge_old_logs` (src/workers/log_retention.py) in
the case where no caller session is supplied (`session_created` is
true): it opens a fresh session, bulk-deletes rows older than the
72-hour cutoff and commits, returning the deleted count; if the
delete raises (`exec_fails`), it rolls the session back and re-raises.
Returns the session as left behind and the outcome. -/
def purge_old_logs (db : List DeliveryLog) (now : Int) (exec_fails : Bool) :
    DbSession × Except String Nat :=
  let s := DbSession.fresh db
  if exec_fails then
    (s.rollback, .error "Error during log purge.")
  else
    let cutoff := retention_cutoff now
    let res := s.execute_delete (fun r => decide (r.timestamp < cutoff))
    (res.fst.commit, .ok res.snd)

/-- Claim C8: a purge run at time now deletes exactly the delivery
logs with timestamp < now - 72h and no others, and reports how many
rows it deleted. -/
theorem c8_retention_purge (db : List DeliveryLog) (now : Int) :
    (∀ row, row ∈ (purge_old_logs db now false).fst.committed ↔
      (row ∈ db ∧ ¬ (row.timestamp < now - 72 * 3600))) ∧
    (purge_old_logs db now false).snd
        = .ok ((db.filter (fun row => decide (row.timestamp < now - 72 * 3600))).length) := by
  constructor
  · intro row
    show row ∈ db.filter (fun r => !(decide (r.timestamp < now - 72 * 3600))) ↔ _
    rw [List.mem_filter]
    simp [retention_cutoff]
  · rfl

/-- Witness for C8: a recent row survives the purge. -/
theorem c8_retention_purge_witness :
    ((⟨7, 3, "u", -100, 1, "Success", none, none⟩ : DeliveryLog)
        ∈ [(⟨7, 3, "u", -300000, 1, "Failed Attempt", none, none⟩ : DeliveryLog),
           ⟨7, 3, "u", -100, 1, "Success", none, none⟩] ∧
      ¬ ((-100 : Int) < 0 - 72 * 3600)) ∧
    (⟨7, 3, "u", -100, 1, "Success", none, none⟩ : DeliveryLog)
        ∈ (purge_old_logs
            [⟨7, 3, "u", -300000, 1, "Failed Attempt", none, none⟩,
             ⟨7, 3, "u", -100, 1, "Success", none, none⟩] 0 false).fst.committed :=
  ⟨⟨by decide, by decide⟩,
    ((c8_retention_purge
        [⟨7, 3, "u", -300000, 1, "Failed Attempt", none, none⟩,
         ⟨7, 3, "u", -100, 1, "Success", none, none⟩] 0).1
      ⟨7, 3, "u", -100, 1, "Success", none, none⟩).mpr ⟨by decide, by decide⟩⟩

/-- Claim C10: when `purge_old_logs` runs without a caller-supplied
session and the bulk delete raises, the transaction is rolled back
and the error re-raised, so the durable table is unchanged; on
success all rows past the horizon are gone - the purge is atomic. -/
theorem c10_purge_rollback (db : List DeliveryLog) (now : Int) :
    (purge_old_logs db now true).fst.committed = db ∧
    (purge_old_logs db now true).fst.pending = db ∧
    (purge_old_logs db now true).snd = .error "Error during log purge." ∧
    (∀ row ∈ db, row ∈ (purge_old_logs db now true).fst.committed) ∧
    (∀ row ∈ (purge_old_logs db now false).fst.committed,
      ¬ (row.timestamp < now - 72 * 3600)) := by
  refine ⟨rfl, rfl, rfl, fun row hrow => hrow, ?_⟩
  intro row hrow
  have : row ∈ db.filter (fun r => !(decide (r.timestamp < now - 72 * 3600))) := by
    simpa [purge_old_logs, DbSession.fresh, DbSession.execute_delete, DbSession.commit,
      retention_cutoff] using hrow
  have := (List.mem_filter.mp this).2
  simpa using this

/-- Witness for C10: the old row survives the failing purge run. -/
theorem c10_purge_rollback_witness :
    ((⟨7, 3, "u", -300000, 1, "Failed Attempt", none, none⟩ : DeliveryLog)
        ∈ [(⟨7, 3, "u", -300000, 1, "Failed Attempt", none, none⟩ : DeliveryLog)]) ∧
    (⟨7, 3, "u", -300000, 1, "Failed Attempt", none, none⟩ : DeliveryLog)
        ∈ (purge_old_logs
            [⟨7, 3, "u", -300000, 1, "Failed Attempt", none, none⟩] 0 true).fst.committed :=
  ⟨by decide,
    (c10_purge_rollback [⟨7, 3, "u", -300000, 1, "Failed Attempt", none, none⟩] 0).2.2.2.1
      ⟨7, 3, "u", -300000, 1, "Failed Attempt", none, none⟩ (by decide)⟩

/-- The comparison used by `order_by(DeliveryLog.timestamp.desc())`:
newest first. -/
def timestamp_desc (a b : DeliveryLog) : Bool :=
  decide (b.timestamp ≤ a.timestamp)

/-- Embedding of `list_subscription_attempts` (src/api/routes/status.py):
select the subscription's logs, newest first, up to `limit`.  The
route declares `limit: int = 20` with no upper bound. -/
def list_subscription_attempts (logs : List DeliveryLog)
    (subscription_id : Nat) (limit : Nat) : List DeliveryLog :=
  ((logs.filter (fun r => r.subscription_id == subscription_id)).mergeSort
    timestamp_desc).take limit

/-- The route called without a `limit` query parameter: the FastAPI
default of 20 applies. -/
def list_subscription_attempts_default (logs : List DeliveryLog)
    (subscription_id : Nat) : List DeliveryLog :=
  list_subscription_attempts logs subscription_id 20

lemma timestamp_desc_trans (a b c : DeliveryLog) :
    timestamp_desc a b = true → timestamp_desc b c = true →
      timestamp_desc a c = true := by
  unfold timestamp_desc
  intro h1 h2
  simp only [decide_eq_true_eq] at h1 h2 ⊢
  omega

lemma timestamp_desc_total (a b : DeliveryLog) :
    (timestamp_desc a b || timestamp_desc b a) = true := by
  unfold timestamp_desc
  rcases Int.le_total b.timestamp a.timestamp with h | h <;> simp [h]

/-- Claim C9 (amended): the subscription-attempts query returns only
rows of the requested subscription, ordered newest first by timestamp,
at most `limit` of them, and `limit` defaults to 20; the requested
limit is not capped (a limit above 100 is honored as-is). -/
theorem c9_subscription_attempts (logs : List DeliveryLog) (sid : Nat)
    (limit : Nat) :
    (∀ r ∈ list_subscription_attempts logs sid limit,
      r.subscription_id = sid ∧ r ∈ logs) ∧
    (list_subscription_attempts logs sid limit).length ≤ limit ∧
    List.Pairwise (fun a b => b.timestamp ≤ a.timestamp)
      (list_subscription_attempts logs sid limit) ∧
    list_subscription_attempts_default logs sid
        = list_subscription_attempts logs sid 20 := by
  refine ⟨?_, ?_, ?_, rfl⟩
  · intro r hr
    have hr2 : r ∈ (logs.filter (fun x => x.subscription_id == sid)).mergeSort
        timestamp_desc := List.mem_of_mem_take hr
    have hr3 := List.mem_mergeSort.mp hr2
    have := List.mem_filter.mp hr3
    exact ⟨by simpa using this.2, this.1⟩
  · unfold list_subscription_attempts
    rw [List.length_take]
    exact min_le_left _ _
  · have hsorted : List.Pairwise (fun a b => timestamp_desc a b = true)
        ((logs.filter (fun x => x.subscription_id == sid)).mergeSort timestamp_desc) :=
      List.sorted_mergeSort timestamp_desc_trans timestamp_desc_total _
    have hsorted2 : List.Pairwise (fun a b => timestamp_desc a b = true)
        (list_subscription_attempts logs sid limit) :=
      List.Pairwise.sublist (List.take_sublist _ _) hsorted
    exact hsorted2.imp (fun h => by simpa [timestamp_desc] using h)

/-- A single log row used in the C9 witness. -/
def rowEx : DeliveryLog := ⟨7, 3, "u", 0, 1, "Success", none, none⟩

/-- Witness for C9: the only row of its subscription is returned and
belongs to the input. -/
theorem c9_subscription_attempts_witness :
    (rowEx ∈ list_subscription_attempts [rowEx] 3 20) ∧
    (rowEx.subscription_id = 3 ∧ rowEx ∈ [rowEx]) :=
  ⟨by simp [list_subscription_attempts, rowEx],
    (c9_subscription_attempts [rowEx] 3 20).1 rowEx
      (by simp [list_subscription_attempts, rowEx])⟩

/-- 101 delivery-log rows of subscription 1, for the C9 counterexample. -/
def many_logs : List DeliveryLog :=
  (List.range 101).map
    (fun i => ⟨i, 1, "u", 0, 1, "Success", none, none⟩)

/-- Counterexample to claim C9 as stated: the route does not cap the
requested limit at 100 - with 101 matching rows and `?limit=101` it
returns 101 rows. -/
theorem c9_counterexample :
    ¬ ((list_subscription_attempts many_logs 1 101).length ≤ 100) := by
  have hfilter : many_logs.filter (fun r => r.subscription_id == 1) = many_logs := by
    apply List.filter_eq_self.mpr
    intro a ha
    rcases List.mem_map.mp ha with ⟨i, _, rfl⟩
    rfl
  have hlen : many_logs.length = 101 := by
    unfold many_logs
    rw [List.length_map, List.length_range]
  unfold list_subscription_attempts
  rw [hfilter, List.length_take, List.length_mergeSort, hlen]
  simp

/-- Global state of the delivery engine: the jobs currently queued
(ready or scheduled) and the delivery_logs table. -/
structure SystemState where
  queue : List DeliveryJob
  logs : List DeliveryLog
deriving DecidableEq

/-- An outcome that ends a webhook's delivery according to the data
model: Success or Failure. -/
def terminal_outcome (o : String) : Bool :=
  o == "Success" || o == "Failure"

/-- The jobs a worker step adds to the queue. -/
def enqueued_jobs (w : WorkerResult) : List DeliveryJob :=
  match w.enqueued with
  | none => []
  | some dj => [dj.snd]

/-- One transition of the system: either an ingestion request is
served (with a webhook id fresh for the whole system, as `uuid4`
guarantees), or a worker dequeues any queued job and processes it with
arbitrary lookup and HTTP outcomes. -/
inductive Step : SystemState → SystemState → Prop
  | ingest (s : SystemState) (sub_data : Option SubData) (body : Option String)
      (sid wid0 : Nat) (et sig : Option String)
      (fresh_q : ∀ j ∈ s.queue, j.webhook_id ≠ wid0)
      (fresh_l : ∀ r ∈ s.logs, r.webhook_id ≠ wid0) :
      Step s ⟨s.queue ++ (ingest_webhook sub_data body wid0 sid et sig).enqueued, s.logs⟩
  | deliver (s : SystemState) (q1 q2 : List DeliveryJob) (j : DeliveryJob)
      (sub_data : Option SubData) (http : HttpResult) (now : Int)
      (hq : s.queue = q1 ++ j :: q2) :
      Step s ⟨q1 ++ q2 ++ enqueued_jobs (process_delivery sub_data http now j),
              s.logs ++ (process_delivery sub_data http now j).logs⟩

/-- States reachable from the empty system by ingestions and worker
steps. -/
inductive Reachable : SystemState → Prop
  | init : Reachable ⟨[], []⟩
  | step {s t : SystemState} : Reachable s → Step s t → Reachable t

/-- The queued jobs of one webhook. -/
def jobs_for (q : List DeliveryJob) (wid : Nat) : List DeliveryJob :=
  q.filter (fun j => j.webhook_id == wid)

/-- The log rows of one webhook, in insertion order. -/
def logs_for (l : List DeliveryLog) (wid : Nat) : List DeliveryLog :=
  l.filter (fun r => r.webhook_id == wid)

/-- The attempt numbers of a list of log rows, in order. -/
def attempts_of (l : List DeliveryLog) : List Nat :=
  l.map (fun r => r.attempt_number)

/-- Induction invariant for one webhook id: its log rows carry attempt
numbers 1..N in order, a terminal row can only be the last and is
unique, and at most one job is queued for it, at attempt N+1, within
the bound, and only while no terminal row exists. -/
structure WebhookInv (s : SystemState) (wid : Nat) : Prop where
  log_attempts : attempts_of (logs_for s.logs wid)
      = List.range' 1 (logs_for s.logs wid).length
  terminal_last : ∀ r ∈ logs_for s.logs wid, terminal_outcome r.outcome = true →
      r.attempt_number = (logs_for s.logs wid).length
  terminal_once : ((logs_for s.logs wid).filter
      (fun r => terminal_outcome r.outcome)).length ≤ 1
  queue_once : (jobs_for s.queue wid).length ≤ 1
  queue_attempt : ∀ j ∈ jobs_for s.queue wid,
      j.attempt = (logs_for s.logs wid).length + 1 ∧ j.attempt ≤ MAX_ATTEMPTS
  queue_live : jobs_for s.queue wid ≠ [] →
      ∀ r ∈ logs_for s.logs wid, terminal_outcome r.outcome = false

lemma webhookInv_of_eq {s t : SystemState} {wid : Nat}
    (hin : WebhookInv s wid)
    (hq : jobs_for t.queue wid = jobs_for s.queue wid)
    (hl : logs_for t.logs wid = logs_for s.logs wid) : WebhookInv t wid :=
  ⟨by rw [hl]; exact hin.log_attempts,
    by rw [hl]; exact hin.terminal_last,
    by rw [hl]; exact hin.terminal_once,
    by rw [hq]; exact hin.queue_once,
    by rw [hq, hl]; exact hin.queue_attempt,
    by rw [hq, hl]; exact hin.queue_live⟩

lemma list_singleton_of_length_le_one {α : Type} {l : List α} {a : α}
    (hlen : l.length ≤ 1) (ha : a ∈ l) : l = [a] := by
  cases l with
  | nil => cases ha
  | cons x xs =>
    cases xs with
    | nil =>
      have : a = x := by simpa using ha
      rw [this]
    | cons y ys => simp at hlen

lemma append_cons_eq_singleton {α : Type} {x y : List α} {a b : α}
    (h : x ++ a :: y = [b]) : x = [] ∧ a = b ∧ y = [] := by
  cases x with
  | nil =>
    simp at h
    exact ⟨rfl, h.1, h.2⟩
  | cons c cs =>
    simp at h

lemma filter_singleton_length_le_one {α : Type} (p : α → Bool) (a : α) :
    (List.filter p [a]).length ≤ 1 := by
  by_cases h : p a = true <;> simp [List.filter_cons, h]

/-- Shape of one worker step's effects: either the job is dropped with
no log and no retry, or exactly one row is logged for this webhook and
attempt, and any scheduled retry is the same job at attempt + 1,
scheduled only when attempts remain and only from a non-terminal row. -/
lemma process_delivery_shape (sub_data : Option SubData) (http : HttpResult)
    (now : Int) (j : DeliveryJob) :
    ((process_delivery sub_data http now j).logs = [] ∧
      (process_delivery sub_data http now j).enqueued = none) ∨
    (∃ row, (process_delivery sub_data http now j).logs = [row] ∧
      row.webhook_id = j.webhook_id ∧ row.attempt_number = j.attempt ∧
      ((process_delivery sub_data http now j).enqueued = none ∨
        ((process_delivery sub_data http now j).enqueued
            = some (BACKOFF_SCHEDULE.getD (j.attempt - 1) 0, next_job j) ∧
          j.attempt < MAX_ATTEMPTS ∧ terminal_outcome row.outcome = false))) := by
  cases sub_data with
  | none => exact Or.inl ⟨rfl, rfl⟩
  | some sub =>
    cases http with
    | response code =>
      by_cases h2xx : 200 ≤ code ∧ code < 300
      · refine Or.inr ⟨mk_log j sub.target_url now "Success" (some code) none, ?_, rfl, rfl, Or.inl ?_⟩
        · simp [process_delivery, h2xx]
        · simp [process_delivery, h2xx]
      · by_cases hlt : j.attempt < MAX_ATTEMPTS
        · refine Or.inr ⟨mk_log j sub.target_url now "Failed Attempt" (some code)
            (some ("HTTP " ++ toString code)), ?_, rfl, rfl, Or.inr ⟨?_, hlt, rfl⟩⟩
          · simp [process_delivery, h2xx, hlt]
          · simp [process_delivery, h2xx, hlt]
        · refine Or.inr ⟨mk_log j sub.target_url now "Failed Attempt" (some code)
            (some ("HTTP " ++ toString code)), ?_, rfl, rfl, Or.inl ?_⟩
          · simp [process_delivery, h2xx, hlt]
          · simp [process_delivery, h2xx, hlt]
    | exn msg =>
      by_cases hlt : j.attempt < MAX_ATTEMPTS
      · refine Or.inr ⟨mk_log j sub.target_url now "Failed Attempt" none (some msg),
          ?_, rfl, rfl, Or.inr ⟨?_, hlt, rfl⟩⟩
        · simp [process_delivery, hlt]
        · simp [process_delivery, hlt]
      · refine Or.inr ⟨mk_log j sub.target_url now "Success" none none, ?_, rfl, rfl, Or.inl ?_⟩
        · simp [process_delivery, hlt]
        · simp [process_delivery, hlt]

lemma process_delivery_logs_wid (sub_data : Option SubData) (http : HttpResult)
    (now : Int) (j : DeliveryJob) :
    ∀ r ∈ (process_delivery sub_data http now j).logs,
      r.webhook_id = j.webhook_id ∧ r.attempt_number = j.attempt := by
  rcases process_delivery_shape sub_data http now j with ⟨hl, _⟩ | ⟨row, hl, hw, ha, _⟩
  · rw [hl]
    intro r hr
    cases hr
  · rw [hl]
    intro r hr
    have : r = row := by simpa using hr
    rw [this]
    exact ⟨hw, ha⟩

lemma enqueued_jobs_wid (sub_data : Option SubData) (http : HttpResult)
    (now : Int) (j : DeliveryJob) :
    ∀ x ∈ enqueued_jobs (process_delivery sub_data http now j),
      x.webhook_id = j.webhook_id ∧ x.attempt = j.attempt + 1 := by
  rcases process_delivery_shape sub_data http now j with ⟨_, he⟩ | ⟨row, _, _, _, henq⟩
  · unfold enqueued_jobs
    rw [he]
    intro x hx
    cases hx
  · rcases henq with he | ⟨he, _, _⟩
    · unfold enqueued_jobs
      rw [he]
      intro x hx
      cases hx
    · unfold enqueued_jobs
      rw [he]
      intro x hx
      have : x = next_job j := by simpa using hx
      rw [this]
      exact ⟨rfl, rfl⟩

lemma jobs_for_append (q1 q2 : List DeliveryJob) (wid : Nat) :
    jobs_for (q1 ++ q2) wid = jobs_for q1 wid ++ jobs_for q2 wid :=
  List.filter_append _ _

lemma logs_for_append (l1 l2 : List DeliveryLog) (wid : Nat) :
    logs_for (l1 ++ l2) wid = logs_for l1 wid ++ logs_for l2 wid :=
  List.filter_append _ _

lemma jobs_for_eq_nil {q : List DeliveryJob} {wid : Nat}
    (h : ∀ j ∈ q, j.webhook_id ≠ wid) : jobs_for q wid = [] := by
  apply List.filter_eq_nil_iff.mpr
  intro a ha
  simp [h a ha]

lemma logs_for_eq_nil {l : List DeliveryLog} {wid : Nat}
    (h : ∀ r ∈ l, r.webhook_id ≠ wid) : logs_for l wid = [] := by
  apply List.filter_eq_nil_iff.mpr
  intro a ha
  simp [h a ha]

lemma jobs_for_eq_self {q : List DeliveryJob} {wid : Nat}
    (h : ∀ j ∈ q, j.webhook_id = wid) : jobs_for q wid = q := by
  apply List.filter_eq_self.mpr
  intro a ha
  simp [h a ha]

lemma logs_for_eq_self {l : List DeliveryLog} {wid : Nat}
    (h : ∀ r ∈ l, r.webhook_id = wid) : logs_for l wid = l := by
  apply List.filter_eq_self.mpr
  intro a ha
  simp [h a ha]

/-- Invariant preservation by one worker step, stated over an
abstract worker result constrained by the shape that
`process_delivery` guarantees. -/
lemma webhookInv_deliver_step (q1 q2 : List DeliveryJob) (l : List DeliveryLog)
    (j : DeliveryJob) (W : WorkerResult) (wid : Nat)
    (hin : WebhookInv ⟨q1 ++ j :: q2, l⟩ wid)
    (hshape : (W.logs = [] ∧ W.enqueued = none) ∨
      (∃ row, W.logs = [row] ∧ row.webhook_id = j.webhook_id ∧
        row.attempt_number = j.attempt ∧
        (W.enqueued = none ∨
          (enqueued_jobs W = [next_job j] ∧ j.attempt < MAX_ATTEMPTS ∧
            terminal_outcome row.outcome = false)))) :
    WebhookInv ⟨q1 ++ q2 ++ enqueued_jobs W, l ++ W.logs⟩ wid := by
  have hlogsw : ∀ r ∈ W.logs, r.webhook_id = j.webhook_id := by
    rcases hshape with ⟨hl, _⟩ | ⟨row, hl, hwr, _, _⟩
    · rw [hl]
      intro r hr
      cases hr
    · rw [hl]
      intro r hr
      have : r = row := by simpa using hr
      rw [this, hwr]
  have henqw : ∀ x ∈ enqueued_jobs W, x.webhook_id = j.webhook_id := by
    rcases hshape with ⟨_, he⟩ | ⟨row, _, _, _, henq⟩
    · unfold enqueued_jobs
      rw [he]
      intro x hx
      cases hx
    · rcases henq with he | ⟨he, _, _⟩
      · unfold enqueued_jobs
        rw [he]
        intro x hx
        cases hx
      · rw [he]
        intro x hx
        have : x = next_job j := by simpa using hx
        rw [this]
        rfl
  by_cases hw : j.webhook_id = wid
  case neg =>
    refine webhookInv_of_eq hin ?_ ?_
    · show jobs_for (q1 ++ q2 ++ enqueued_jobs W) wid = jobs_for (q1 ++ j :: q2) wid
      have hE : jobs_for (enqueued_jobs W) wid = [] := by
        apply jobs_for_eq_nil
        intro x hx
        rw [henqw x hx]
        exact hw
      have hcons : jobs_for (j :: q2) wid = jobs_for q2 wid := by
        unfold jobs_for
        rw [List.filter_cons, if_neg (by simp [hw])]
      simp only [jobs_for_append, hE, List.append_nil, hcons]
    · show logs_for (l ++ W.logs) wid = logs_for l wid
      have hRl : logs_for W.logs wid = [] := by
        apply logs_for_eq_nil
        intro r hr
        rw [hlogsw r hr]
        exact hw
      rw [logs_for_append, hRl, List.append_nil]
  case pos =>
    subst hw
    have hmem : j ∈ jobs_for (q1 ++ j :: q2) j.webhook_id := by
      unfold jobs_for
      apply List.mem_filter.mpr
      exact ⟨by simp, by simp⟩
    have hQ : jobs_for (q1 ++ j :: q2) j.webhook_id = [j] :=
      list_singleton_of_length_le_one hin.queue_once hmem
    have hcons : jobs_for (j :: q2) j.webhook_id = j :: jobs_for q2 j.webhook_id := by
      unfold jobs_for
      rw [List.filter_cons, if_pos (by simp)]
    have hsplit : jobs_for q1 j.webhook_id ++ j :: jobs_for q2 j.webhook_id = [j] := by
      rw [← hcons, ← jobs_for_append]
      exact hQ
    obtain ⟨hq1, -, hq2⟩ := append_cons_eq_singleton hsplit
    obtain ⟨hA, hA5⟩ := hin.queue_attempt j hmem
    have hNT : ∀ r ∈ logs_for l j.webhook_id, terminal_outcome r.outcome = false :=
      hin.queue_live (by rw [hQ]; simp)
    have hQnew : jobs_for (q1 ++ q2 ++ enqueued_jobs W) j.webhook_id
        = enqueued_jobs W := by
      have hEself : jobs_for (enqueued_jobs W) j.webhook_id = enqueued_jobs W :=
        jobs_for_eq_self (fun x hx => henqw x hx)
      rw [jobs_for_append, jobs_for_append, hq1, hq2, hEself]
      rfl
    have hLnew : logs_for (l ++ W.logs) j.webhook_id
        = logs_for l j.webhook_id ++ W.logs := by
      rw [logs_for_append]
      congr 1
      exact logs_for_eq_self (fun r hr => hlogsw r hr)
    have hAttIn : attempts_of (logs_for l j.webhook_id)
        = List.range' 1 (logs_for l j.webhook_id).length := hin.log_attempts
    rcases hshape with ⟨hlogs, henq⟩ | ⟨row, hlogs, hrw, hra, henq⟩
    · have hE0 : enqueued_jobs W = [] := by
        unfold enqueued_jobs
        rw [henq]
      refine ⟨?_, ?_, ?_, ?_, ?_, ?_⟩
      · show attempts_of (logs_for (l ++ W.logs) j.webhook_id)
            = List.range' 1 (logs_for (l ++ W.logs) j.webhook_id).length
        rw [hLnew, hlogs, List.append_nil]
        exact hAttIn
      · show ∀ r ∈ logs_for (l ++ W.logs) j.webhook_id, _
        rw [hLnew, hlogs, List.append_nil]
        intro r hr ht
        rw [hNT r hr] at ht
        simp at ht
      · show ((logs_for (l ++ W.logs) j.webhook_id).filter
            (fun r => terminal_outcome r.outcome)).length ≤ 1
        rw [hLnew, hlogs, List.append_nil]
        exact hin.terminal_once
      · show (jobs_for (q1 ++ q2 ++ enqueued_jobs W) j.webhook_id).length ≤ 1
        rw [hQnew, hE0]
        simp
      · show ∀ x ∈ jobs_for (q1 ++ q2 ++ enqueued_jobs W) j.webhook_id, _
        rw [hQnew, hE0]
        intro x hx
        cases hx
      · show jobs_for (q1 ++ q2 ++ enqueued_jobs W) j.webhook_id ≠ [] → _
        rw [hQnew, hE0]
        intro hne
        exact absurd rfl hne
    · set n := (logs_for l j.webhook_id).length with hn
      have hlen : (logs_for l j.webhook_id ++ [row]).length = n + 1 := by
        rw [List.length_append]
        rfl
      have hattch : attempts_of (logs_for l j.webhook_id ++ [row])
          = List.range' 1 (n + 1) := by
        unfold attempts_of
        rw [List.map_append]
        have hL : List.map (fun r => r.attempt_number) (logs_for l j.webhook_id)
            = List.range' 1 n := hAttIn
        have h1 : 1 + 1 * n = n + 1 := by omega
        rw [hL, List.range'_concat, h1]
        simp [hra, hA]
      have hterm_last : ∀ r ∈ logs_for l j.webhook_id ++ [row],
          terminal_outcome r.outcome = true → r.attempt_number = n + 1 := by
        intro r hr ht
        rcases List.mem_append.mp hr with hr | hr
        · rw [hNT r hr] at ht
          simp at ht
        · have : r = row := by simpa using hr
          rw [this, hra, hA]
      have hterm_once : ((logs_for l j.webhook_id ++ [row]).filter
          (fun r => terminal_outcome r.outcome)).length ≤ 1 := by
        rw [List.filter_append]
        have h0 : (logs_for l j.webhook_id).filter (fun r => terminal_outcome r.outcome)
            = [] :=
          List.filter_eq_nil_iff.mpr (fun r hr => by simp [hNT r hr])
        rw [h0, List.nil_append]
        exact filter_singleton_length_le_one _ _
      have hlog_fields :
          attempts_of (logs_for (l ++ W.logs) j.webhook_id)
              = List.range' 1 (logs_for (l ++ W.logs) j.webhook_id).length ∧
          (∀ r ∈ logs_for (l ++ W.logs) j.webhook_id,
            terminal_outcome r.outcome = true →
              r.attempt_number = (logs_for (l ++ W.logs) j.webhook_id).length) ∧
          ((logs_for (l ++ W.logs) j.webhook_id).filter
            (fun r => terminal_outcome r.outcome)).length ≤ 1 := by
        refine ⟨?_, ?_, ?_⟩
        · rw [hLnew, hlogs, hattch, hlen]
        · rw [hLnew, hlogs, hlen]
          exact hterm_last
        · rw [hLnew, hlogs]
          exact hterm_once
      rcases henq with henq | ⟨hE1, hlt, hterm⟩
      · have hE0 : enqueued_jobs W = [] := by
          unfold enqueued_jobs
          rw [henq]
        refine ⟨hlog_fields.1, hlog_fields.2.1, hlog_fields.2.2, ?_, ?_, ?_⟩
        · show (jobs_for (q1 ++ q2 ++ enqueued_jobs W) j.webhook_id).length ≤ 1
          rw [hQnew, hE0]
          simp
        · show ∀ x ∈ jobs_for (q1 ++ q2 ++ enqueued_jobs W) j.webhook_id, _
          rw [hQnew, hE0]
          intro x hx
          cases hx
        · show jobs_for (q1 ++ q2 ++ enqueued_jobs W) j.webhook_id ≠ [] → _
          rw [hQnew, hE0]
          intro hne
          exact absurd rfl hne
      · refine ⟨hlog_fields.1, hlog_fields.2.1, hlog_fields.2.2, ?_, ?_, ?_⟩
        · show (jobs_for (q1 ++ q2 ++ enqueued_jobs W) j.webhook_id).length ≤ 1
          rw [hQnew, hE1]
          simp
        · show ∀ x ∈ jobs_for (q1 ++ q2 ++ enqueued_jobs W) j.webhook_id,
            x.attempt = (logs_for (l ++ W.logs) j.webhook_id).length + 1 ∧
              x.attempt ≤ MAX_ATTEMPTS
          rw [hQnew, hE1, hLnew, hlogs, hlen]
          intro x hx
          have hx2 : x = next_job j := by simpa using hx
          rw [hx2]
          constructor
          · show j.attempt + 1 = (n + 1) + 1
            omega
          · show j.attempt + 1 ≤ MAX_ATTEMPTS
            unfold MAX_ATTEMPTS at hlt ⊢
            omega
        · show jobs_for (q1 ++ q2 ++ enqueued_jobs W) j.webhook_id ≠ [] →
            ∀ r ∈ logs_for (l ++ W.logs) j.webhook_id,
              terminal_outcome r.outcome = false
          rw [hQnew, hE1, hLnew, hlogs]
          intro _ r hr
          rcases List.mem_append.mp hr with hr | hr
          · exact hNT r hr
          · have : r = row := by simpa using hr
            rw [this]
            exact hterm

/-- Invariant establishment for a fresh webhook id: one job at
attempt 1 is appended for an id with no queued job and no log row. -/
lemma webhookInv_fresh_enqueue {q : List DeliveryJob} {l : List DeliveryLog}
    {wid : Nat} (jn : DeliveryJob) (hwid : jn.webhook_id = wid)
    (hatt : jn.attempt = 1) (hq0 : jobs_for q wid = [])
    (hl0 : logs_for l wid = []) : WebhookInv ⟨q ++ [jn], l⟩ wid := by
  have hjn : jobs_for [jn] wid = [jn] := by
    unfold jobs_for
    rw [List.filter_cons, if_pos (by simp [hwid])]
    rfl
  refine ⟨?_, ?_, ?_, ?_, ?_, ?_⟩
  · show attempts_of (logs_for l wid) = List.range' 1 (logs_for l wid).length
    rw [hl0]
    rfl
  · show ∀ r ∈ logs_for l wid, _
    rw [hl0]
    intro r hr
    cases hr
  · show ((logs_for l wid).filter (fun r => terminal_outcome r.outcome)).length ≤ 1
    rw [hl0]
    simp
  · show (jobs_for (q ++ [jn]) wid).length ≤ 1
    rw [jobs_for_append, hq0, hjn]
    simp
  · show ∀ x ∈ jobs_for (q ++ [jn]) wid,
      x.attempt = (logs_for l wid).length + 1 ∧ x.attempt ≤ MAX_ATTEMPTS
    rw [jobs_for_append, hq0, hjn, hl0]
    intro x hx
    have hx2 : x = jn := by simpa using hx
    rw [hx2, hatt]
    exact ⟨rfl, by decide⟩
  · show jobs_for (q ++ [jn]) wid ≠ [] → ∀ r ∈ logs_for l wid, _
    rw [hl0]
    intro _ r hr
    cases hr

/-- Every transition preserves the per-webhook invariant. -/
lemma step_preserves {s t : SystemState} (hstep : Step s t) (wid : Nat)
    (hin : WebhookInv s wid) : WebhookInv t wid := by
  cases hstep with
  | ingest sub_data body sid wid0 et sig fresh_q fresh_l =>
    cases sub_data with
    | none =>
      refine webhookInv_of_eq hin ?_ rfl
      show jobs_for (s.queue ++ (ingest_webhook none body wid0 sid et sig).enqueued) wid
          = jobs_for s.queue wid
      simp [ingest_webhook]
    | some sub =>
      cases body with
      | none =>
        refine webhookInv_of_eq hin ?_ rfl
        show jobs_for (s.queue ++ (ingest_webhook (some sub) none wid0 sid et sig).enqueued) wid
            = jobs_for s.queue wid
        simp [ingest_webhook]
      | some payload =>
        by_cases hw : wid0 = wid
        · subst hw
          exact webhookInv_fresh_enqueue ⟨sid, payload, et, sig, wid0, 1⟩ rfl rfl
            (jobs_for_eq_nil fresh_q) (logs_for_eq_nil fresh_l)
        · refine webhookInv_of_eq hin ?_ rfl
          show jobs_for
              (s.queue ++ (ingest_webhook (some sub) (some payload) wid0 sid et sig).enqueued)
              wid = jobs_for s.queue wid
          have hjn : jobs_for
              (ingest_webhook (some sub) (some payload) wid0 sid et sig).enqueued wid = [] := by
            apply jobs_for_eq_nil
            intro x hx
            have hx2 : x = (⟨sid, payload, et, sig, wid0, 1⟩ : DeliveryJob) := by
              simpa [ingest_webhook] using hx
            rw [hx2]
            exact hw
          rw [jobs_for_append, hjn, List.append_nil]
  | deliver q1 q2 j sub_data http now hq =>
    have hin2 : WebhookInv ⟨q1 ++ j :: q2, s.logs⟩ wid := by
      refine webhookInv_of_eq hin ?_ rfl
      show jobs_for (q1 ++ j :: q2) wid = jobs_for s.queue wid
      rw [hq]
    apply webhookInv_deliver_step q1 q2 s.logs j _ wid hin2
    rcases process_delivery_shape sub_data http now j with ⟨hl, he⟩ | ⟨row, hl, hwr, hra, henq⟩
    · exact Or.inl ⟨hl, he⟩
    · refine Or.inr ⟨row, hl, hwr, hra, ?_⟩
      rcases henq with he | ⟨he, hlt, ht⟩
      · exact Or.inl he
      · refine Or.inr ⟨?_, hlt, ht⟩
        unfold enqueued_jobs
        rw [he]

/-- Every reachable state satisfies the per-webhook invariant. -/
lemma reachable_inv {s : SystemState} (h : Reachable s) (wid : Nat) :
    WebhookInv s wid := by
  induction h with
  | init =>
    refine ⟨rfl, ?_, ?_, ?_, ?_, ?_⟩
    · intro r hr
      simp [logs_for] at hr
    · show ((logs_for [] wid).filter (fun r => terminal_outcome r.outcome)).length ≤ 1
      simp [logs_for]
    · show (jobs_for [] wid).length ≤ 1
      simp [jobs_for]
    · intro x hx
      simp [jobs_for] at hx
    · intro hne
      exact absurd rfl hne
  | step hs hstep ih => exact step_preserves hstep wid ih

/-- Claim C4: in every state reachable by ingestions and worker steps,
each webhook's log rows carry exactly the attempt numbers 1..N for
their count N, without duplicates, at most one of them has a terminal
outcome (Success or Failure), and a terminal row can only be the row
with attempt number N. -/
theorem c4_log_attempt_invariant (s : SystemState) (wid : Nat)
    (h : Reachable s) :
    (∀ a, a ∈ attempts_of (logs_for s.logs wid) ↔
      (1 ≤ a ∧ a ≤ (logs_for s.logs wid).length)) ∧
    (attempts_of (logs_for s.logs wid)).Nodup ∧
    ((logs_for s.logs wid).filter (fun r => terminal_outcome r.outcome)).length ≤ 1 ∧
    (∀ r ∈ logs_for s.logs wid, terminal_outcome r.outcome = true →
      r.attempt_number = (logs_for s.logs wid).length) := by
  have hin := reachable_inv h wid
  refine ⟨?_, ?_, hin.terminal_once, hin.terminal_last⟩
  · intro a
    rw [hin.log_attempts, List.mem_range'_1]
    omega
  · rw [hin.log_attempts]
    exact List.nodup_range' 1 _ 1 (by omega)

/-- The job created by the witness ingestion (webhook 5, attempt 1). -/
def jobW : DeliveryJob := ⟨3, "p", none, none, 5, 1⟩

/-- The state of the witness run after ingesting webhook 5 and
processing its first attempt against a 503 response: one Failed
Attempt row and the retry at attempt 2 queued. -/
def sW : SystemState :=
  ⟨[⟨3, "p", none, none, 5, 2⟩],
   [⟨5, 3, "http://t", 0, 1, "Failed Attempt", some 503, some ("HTTP " ++ toString 503)⟩]⟩

lemma sW_reachable : Reachable sW := by
  have h1 : Step ⟨[], []⟩ ⟨[jobW], []⟩ :=
    Step.ingest ⟨[], []⟩ (some subEx) (some "p") 3 5 none none
      (by intro x hx; cases hx) (by intro x hx; cases hx)
  have h2 : Step ⟨[jobW], []⟩ sW :=
    Step.deliver ⟨[jobW], []⟩ [] [] jobW (some subEx) (.response 503) 0 rfl
  exact Reachable.step (Reachable.step Reachable.init h1) h2

/-- Witness for C4 at a concrete reachable state: after one failed
attempt of webhook 5, its single log row carries attempt number 1 and
no terminal outcome. -/
theorem c4_log_attempt_invariant_witness :
    Reachable sW ∧
    ((∀ a, a ∈ attempts_of (logs_for sW.logs 5) ↔
        (1 ≤ a ∧ a ≤ (logs_for sW.logs 5).length)) ∧
      (attempts_of (logs_for sW.logs 5)).Nodup ∧
      ((logs_for sW.logs 5).filter (fun r => terminal_outcome r.outcome)).length ≤ 1 ∧
      (∀ r ∈ logs_for sW.logs 5, terminal_outcome r.outcome = true →
        r.attempt_number = (logs_for sW.logs 5).length)) :=
  ⟨sW_reachable, c4_log_attempt_invariant sW 5 sW_reachable⟩
